import Mathlib

/-!
Verification development for the iAddressBook2RDF repository.

The repository has two Python source files:
  * `PhoneNumberUtils.py` — phone-number normalization utilities,
  * `iAddressBook2RDF.py` — the AddressBook-to-N-Triples converter, which
    contains its own (older) copy of the phone normalization code, the
    multi-value group reconstructor and the N-Triples serializer.

The Python functions are embedded shallowly: Python dicts become
insertion-ordered association lists (`listDictSet` updates the first matching
key in place, otherwise appends, exactly like a Python dict assignment),
optional/falsy values become `Option` with explicit Python-truthiness tests,
and code paths that raise (`assert`, tuple-unpack `ValueError`, calling
`None`) return `Except` errors.  String case-lowering is modeled on ASCII
and `datetime` conversion uses UTC as the timezone model; no claim below
depends on either choice.
-/

/-! ### Association-list model of Python dicts -/

/-- Python dict assignment `d[k] = v`: update the (unique) existing entry in
place, keeping its position, otherwise append at the end. -/
def listDictSet {α β : Type} [DecidableEq α] : List (α × β) → α → β → List (α × β)
  | [], k, v => [(k, v)]
  | kv :: rest, k, v =>
    if kv.1 = k then (k, v) :: rest else kv :: listDictSet rest k v

/-- Python dict lookup `d[k]` (as an `Option`: `none` models `KeyError`). -/
def listDictGet? {α β : Type} [DecidableEq α] : List (α × β) → α → Option β
  | [], _ => none
  | kv :: rest, k => if kv.1 = k then some kv.2 else listDictGet? rest k

theorem listDictSet_keys {α β : Type} [DecidableEq α] (d : List (α × β)) (k : α) (v : β) :
    (listDictSet d k v).map Prod.fst =
      if k ∈ d.map Prod.fst then d.map Prod.fst else d.map Prod.fst ++ [k] := by
  induction d with
  | nil => simp [listDictSet]
  | cons kv rest ih =>
    by_cases h : kv.1 = k
    · simp [listDictSet, h]
    · have hne : ¬ k = kv.1 := fun hh => h hh.symm
      by_cases hm : k ∈ rest.map Prod.fst
      · simp [listDictSet, h, hm, ih, hne]
      · simp [listDictSet, h, hm, ih, hne]

theorem listDictSet_ne_nil {α β : Type} [DecidableEq α] (d : List (α × β)) (k : α) (v : β) :
    listDictSet d k v ≠ [] := by
  cases d with
  | nil => simp [listDictSet]
  | cons kv rest =>
    by_cases h : kv.1 = k <;> simp [listDictSet, h]

theorem listDictSet_mem_keys {α β : Type} [DecidableEq α] (d : List (α × β)) (k : α) (v : β) :
    k ∈ (listDictSet d k v).map Prod.fst := by
  rw [listDictSet_keys]
  by_cases hm : k ∈ d.map Prod.fst <;> simp [hm]

theorem listDictSet_keys_mono {α β : Type} [DecidableEq α] (d : List (α × β)) (k a : α) (v : β)
    (h : a ∈ d.map Prod.fst) : a ∈ (listDictSet d k v).map Prod.fst := by
  rw [listDictSet_keys]
  by_cases hm : k ∈ d.map Prod.fst <;> simp [hm, h]

theorem listDictSet_keys_nodup {α β : Type} [DecidableEq α] (d : List (α × β)) (k : α) (v : β)
    (h : (d.map Prod.fst).Nodup) : ((listDictSet d k v).map Prod.fst).Nodup := by
  rw [listDictSet_keys]
  by_cases hm : k ∈ d.map Prod.fst
  · simpa [hm] using h
  · simp only [hm, if_false]
    rw [List.nodup_append]
    refine ⟨h, List.nodup_singleton _, ?_⟩
    intro x hx hk
    simp only [List.mem_singleton] at hk
    subst hk
    exact hm hx

theorem listDictGet?_set {α β : Type} [DecidableEq α] (d : List (α × β)) (k : α) (v : β) :
    listDictGet? (listDictSet d k v) k = some v := by
  induction d with
  | nil => simp [listDictSet, listDictGet?]
  | cons kv rest ih =>
    by_cases h : kv.1 = k <;> simp [listDictSet, listDictGet?, h, ih]

theorem listDictSet_set {α β : Type} [DecidableEq α] (d : List (α × β)) (k : α) (a b : β) :
    listDictSet (listDictSet d k a) k b = listDictSet d k b := by
  induction d with
  | nil => simp [listDictSet]
  | cons kv rest ih =>
    by_cases h : kv.1 = k <;> simp [listDictSet, h, ih]

theorem listDictGet?_of_mem_keys {α β : Type} [DecidableEq α] (d : List (α × β)) (k : α)
    (h : k ∈ d.map Prod.fst) : ∃ b, listDictGet? d k = some b := by
  induction d with
  | nil => simp at h
  | cons kv rest ih =>
    by_cases hk : kv.1 = k
    · exact ⟨kv.2, by simp [listDictGet?, hk]⟩
    · have : k ∈ rest.map Prod.fst := by
        rcases List.mem_map.mp h with ⟨x, hx, hfst⟩
        rcases List.mem_cons.mp hx with rfl | hx'
        · exact absurd hfst hk
        · exact List.mem_map.mpr ⟨x, hx', hfst⟩
      rcases ih this with ⟨b, hb⟩
      exact ⟨b, by simp [listDictGet?, hk, hb]⟩

/-! ### Python truthiness and string helpers -/

/-- Python truthiness of an optional string (`None` and `""` are falsy). -/
def pyTruthyS : Option String → Bool
  | none => false
  | some s => s ≠ ""

/-- Python truthiness of an optional integer (`None` and `0` are falsy). -/
def pyTruthyI : Option Int → Bool
  | none => false
  | some n => n ≠ 0

/-- Whether `l₂` begins with `l₁` (structural model of Python `str.startswith`). -/
def listBeginsWith : List Char → List Char → Bool
  | _, [] => true
  | [], _ :: _ => false
  | c :: cs, p :: ps => c = p && listBeginsWith cs ps

/-- Python `s.startswith(p)` over character lists (kernel-reducible,
equivalent to `String.startsWith`). -/
def strBeginsWith (s p : String) : Bool :=
  listBeginsWith s.toList p.toList

/-- Python character-level slice `s[n:]` (kernel-reducible, equivalent to
`String.drop`). -/
def strDrop (s : String) (n : Nat) : String :=
  (s.toList.drop n).asString

/-- Python `len(s)` (kernel-reducible, equivalent to `String.length`). -/
def strLen (s : String) : Nat :=
  s.toList.length

/-- Python `str.isdigit()` (ASCII model): nonempty and all digits. -/
def pyIsDigit (s : String) : Bool :=
  !s.toList.isEmpty && s.toList.all Char.isDigit

/-! ### Phone number normalization (`PhoneNumberUtils.py` and the older copy
in `iAddressBook2RDF.py`) -/

/-- Formatting characters removed by `normalize_phone_number`
(`"<>()-‑ \t\n ‪‬"`). -/
def format_removed_chars : List Char :=
  ['<', '>', '(', ')', '-', '‑', ' ', '\t', '\n', ' ', '‪', '‬']

/-- `unicode(phoneNo).lower().translate(...)`: lowercase (ASCII model) and
drop the formatting characters. -/
def cleanPhone (s : String) : String :=
  ((s.toList.map Char.toLower).filter (fun c => !format_removed_chars.contains c)).asString

/-- Source line `if phoneNo.startswith("tel:"): phoneNo = phoneNo[4:]`. -/
def stripTelScheme (s : String) : String :=
  if strBeginsWith s "tel:" then strDrop s 4 else s

/-- Source line `isSpecial = len(phoneNo) < 5 or "*" in phoneNo or "#" in phoneNo`. -/
def isSpecialPhone (s : String) : Bool :=
  decide (strLen s < 5) || s.toList.contains '*' || s.toList.contains '#'

/-- Source expression `phoneNo.translate({ord(c): None for c in "+*#"})`. -/
def removePlusStarHash (s : String) : String :=
  (s.toList.filter (fun c => !(['+', '*', '#'].contains c))).asString

/-- Source table `calling_prefixes = ['0011', '000', '001', '010', '011', '00', '+']`. -/
def calling_prefixes : List String := ["0011", "000", "001", "010", "011", "00", "+"]

/-- The prefix-stripping loop of `PhoneNumberUtils.normalize_phone_number`:
the first listed match is stripped and the loop `break`s. -/
def strip_first_calling_code (ps : List String) (s : String) : String × Bool :=
  match ps.find? (fun p => strBeginsWith s p) with
  | some p => (strDrop s (strLen p), true)
  | none => (s, false)

/-- The prefix-stripping loop of `iAddressBook2RDF.normalize_phone_number`:
it has no `break`, so after a match the later-listed sequences are still
tested against the remainder. -/
def strip_calling_codes_cascade : List String → String × Bool → String × Bool
  | [], sp => sp
  | p :: ps, sp =>
    if strBeginsWith sp.1 p then strip_calling_codes_cascade ps (strDrop sp.1 (strLen p), true)
    else strip_calling_codes_cascade ps sp

/-- Calling codes with no local trunk prefix. -/
def no_trunk_codes : List String :=
  ["420", "45", "372", "30", "39", "371", "352", "356", "377",
   "977", "47", "968", "48", "351", "378", "34", "3906698"]

/-- Function `get_local_trunk_prefix_for_country_code` (identical in both files). -/
def get_local_trunk_prefix_for_country_code (code : String) : String :=
  if code = "" then ""
  else if strBeginsWith code "1" then "1"
  else if strBeginsWith code "7" then "8"
  else if code = "36" then "06"
  else if no_trunk_codes.contains code then ""
  else "0"

/-- Python truthiness of the optional `countryCallingCode` argument. -/
def pyTruthyOptStr : Option String → Bool
  | none => false
  | some s => s ≠ ""

/-- Source line `if not isInternational: isInternational = len(phoneNo) >= 11`. -/
def intl_len_heuristic (sp : String × Bool) : String × Bool :=
  if !sp.2 then (sp.1, decide (11 ≤ strLen sp.1)) else sp

/-- The trunk-replacement step: if still local, not special and a country
calling code is supplied, replace a leading trunk prefix by the code. -/
def trunk_step (countryCallingCode : Option String) (isSpecial : Bool)
    (sp : String × Bool) : String × Bool :=
  if !sp.2 && !isSpecial && pyTruthyOptStr countryCallingCode then
    let cc := countryCallingCode.getD ""
    let trunk := get_local_trunk_prefix_for_country_code cc
    if strBeginsWith sp.1 trunk then (cc ++ strDrop sp.1 (strLen trunk), true) else sp
  else sp

/-- Source line `return "+" + phoneNo if isInternational and not isSpecial else phoneNo`. -/
def finish_phone (isSpecial : Bool) (sp : String × Bool) : String :=
  if sp.2 && !isSpecial then "+" ++ sp.1 else sp.1

namespace PhoneNumberUtils

/-- Function `PhoneNumberUtils.normalize_phone_number` (the 2017 utility module:
digit validation only on request, prefix loop with `break`). -/
def normalize_phone_number (phoneNo : String) (countryCallingCode : Option String)
    (validateDigitsOnly : Bool) : Option String :=
  let p := stripTelScheme (cleanPhone phoneNo)
  let isSpecial := isSpecialPhone p
  if validateDigitsOnly && !pyIsDigit (removePlusStarHash p) then none
  else
    let sp := intl_len_heuristic (strip_first_calling_code calling_prefixes p)
    let sp := trunk_step countryCallingCode isSpecial sp
    some (finish_phone isSpecial sp)

end PhoneNumberUtils

namespace IAddressBook2RDF

/-- Function `iAddressBook2RDF.normalize_phone_number` (the converter's own copy:
digit validation always on, prefix loop without `break`). -/
def normalize_phone_number (phoneNo : String) (countryCallingCode : Option String) :
    Option String :=
  let p := stripTelScheme (cleanPhone phoneNo)
  let isSpecial := isSpecialPhone p
  if !pyIsDigit (removePlusStarHash p) then none
  else
    let sp := intl_len_heuristic (strip_calling_codes_cascade calling_prefixes (p, false))
    let sp := trunk_step countryCallingCode isSpecial sp
    some (finish_phone isSpecial sp)

end IAddressBook2RDF

/-! ### Literal and URI formatting (`format_literal`, `format_uri`) -/

/-- One character pass modeling the three sequential `str.replace` calls of
`format_literal` (backslash doubling, quote escaping, newline escaping);
they coincide because no replacement output contains a later pattern at a
position the sequential passes would rescan. -/
def escape_literal_chars (cs : List Char) : List Char :=
  cs.flatMap (fun c =>
    if c = '\\' then ['\\', '\\']
    else if c = '"' then ['\\', '"']
    else if c = '\n' then ['\\', 'n']
    else [c])

/-- Function `format_literal`: `None` becomes the empty string, anything else is
escaped and wrapped in double quotes. -/
def format_literal (s : Option String) : String :=
  match s with
  | none => ""
  | some v => "\"" ++ (escape_literal_chars v.toList).asString ++ "\""

/-- Function `format_uri(s) = '<' + s + '>'`. -/
def format_uri (s : String) : String := "<" ++ s ++ ">"

/-! ### Vocabulary prefix resolution (`qname_to_uri`) -/

def qnames_prefix_map : List (String × String) :=
  [("rdf", "http://www.w3.org/1999/02/22-rdf-syntax-ns#"),
   ("rdfs", "http://www.w3.org/2000/01/rdf-schema#"),
   ("abp", "http://www.apple.com/ABPerson#"),
   ("vcard", "http://www.w3.org/2006/vcard/ns#"),
   ("gn", "http://www.geonames.org/ontology#")]

/-- Python `rel.partition(':')` restricted to the found case: the text
before the first colon and the text after it. -/
def splitAtFirstColon (s : String) : Option (String × String) :=
  match s.toList.findIdx? (fun c => c = ':') with
  | some i => some ((s.toList.take i).asString, (s.toList.drop (i + 1)).asString)
  | none => none

/-- Python `s.endswith(p)` (kernel-reducible). -/
def strEndsWith (s p : String) : Bool :=
  listBeginsWith s.toList.reverse p.toList.reverse

/-- The fall-through of `qname_to_uri`: wrap in angle brackets unless the
respective bracket is already present. -/
def wrap_angle_if_needed (rel : String) : String :=
  let rel := if strBeginsWith rel "<" then rel else "<" ++ rel
  if strEndsWith rel ">" then rel else rel ++ ">"

/-- Function `qname_to_uri`: resolve a known `prefix:localname` through the prefix
table, otherwise pass the term through wrapped as `<...>`. -/
def qname_to_uri (rel : String) : String :=
  match splitAtFirstColon rel with
  | some pr =>
    match listDictGet? qnames_prefix_map pr.1 with
    | some uri => "<" ++ uri ++ pr.2 ++ ">"
    | none => wrap_angle_if_needed rel
  | none => wrap_angle_if_needed rel

/-! ### Statements (`output_triple`) -/

structure Triple where
  subj : String
  pred : String
  obj : String
deriving DecidableEq

/-- The object passthrough of `output_triple`: URIs (`<...>`), quoted
literals and blank-node tokens pass unchanged; anything else is resolved
through the prefix table. -/
def resolve_object (obj : String) : String :=
  if strBeginsWith obj "<" && strEndsWith obj ">" then obj
  else if strBeginsWith obj "\"" && strEndsWith obj "\"" then obj
  else if strBeginsWith obj "_:" then obj
  else qname_to_uri obj

/-- Function `output_triple` as a value: the subject is emitted as-is, the predicate
is always resolved, the object goes through `resolve_object`. -/
def output_triple (subj pred obj : String) : Triple :=
  ⟨subj, qname_to_uri pred, resolve_object obj⟩

/-! ### Category labels (`translate_category_label`) -/

/-- Python character-level slice `s[:-n]`-style tail drop. -/
def strDropEnd (s : String) (n : Nat) : String :=
  (s.toList.take (s.toList.length - n)).asString

/-- Function `translate_category_label`: falsy labels give `None`; otherwise the
`_$!<...>!$_` decorator is stripped (when the label is longer than 8 and
starts with `_$!<`, Python slice `[4:-4]`) and the label is returned wrapped
in double quotes — a literal category tag.  There is no label-to-type
table. -/
def translate_category_label (categ_label : Option String) : Option String :=
  match categ_label with
  | none => none
  | some s =>
    if s = "" then none
    else
      let c := if 8 < strLen s ∧ strBeginsWith s "_$!<" = true
               then strDropEnd (strDrop s 4) 4 else s
      some ("\"" ++ c ++ "\"")

/-! ### Apple date conversion (dead code path for the claims below; kept for
a faithful handler table).  `datetime.fromtimestamp` is modeled in UTC. -/

/-- Decimal digits to a natural number. -/
def digitsToNat (cs : List Char) : Nat :=
  cs.foldl (fun a c => a * 10 + (c.toNat - 48)) 0

/-- Model of Python `float()` on the DB date strings: optional sign, digits,
optional fractional part; the fraction is dropped (only whole days matter
downstream); failure models `ValueError`. -/
def pyFloatSecs? (s : String) : Option Int :=
  let cs := s.toList
  let neg := listBeginsWith cs ['-']
  let cs := if listBeginsWith cs ['-'] || listBeginsWith cs ['+'] then cs.drop 1 else cs
  let intPart := cs.takeWhile Char.isDigit
  let rest := cs.drop intPart.length
  if intPart.isEmpty then none
  else if rest.isEmpty || (listBeginsWith rest ['.'] && (rest.drop 1).all Char.isDigit) then
    let n : Int := Int.ofNat (digitsToNat intPart)
    some (if neg then -n else n)
  else none

/-- Gregorian civil date from days since the Unix epoch. -/
def civil_from_days (z0 : Int) : Int × Nat × Nat :=
  let z := z0 + 719468
  let era := z.ediv 146097
  let doe := (z - era * 146097).toNat
  let yoe := (doe - doe / 1460 + doe / 36524 - doe / 146096) / 365
  let doy := doe - (365 * yoe + yoe / 4 - yoe / 100)
  let mp := (5 * doy + 2) / 153
  let d := doy - (153 * mp + 2) / 5 + 1
  let m := if mp < 10 then mp + 3 else mp - 9
  (era * 400 + yoe + (if m ≤ 2 then 1 else 0), m, d)

/-- Format `'%02d'`. -/
def pad2 (n : Nat) : String := if n < 10 then "0" ++ toString n else toString n

/-- Function `apple_date_to_iso_8601(adt, is_timestamp=False)`: `'--%02d-%02d'` from
the month and day of `978307200 + adt` seconds (UTC model). -/
def apple_date_to_iso_8601_month_day (adt : Int) : String :=
  let days := (978307200 + adt).ediv 86400
  let md := civil_from_days days
  "--" ++ pad2 md.2.1 ++ "-" ++ pad2 md.2.2

/-! ### Multi-value property dispatch and handlers -/

/-- Errors raised while processing multi-value rows.  `valueError` models the
`ValueError` of unpacking the string fallback of
`_get_mv_property_type_qname` into the 2-tuple
`current_prop_relation, current_prop_func`; the `assert...` constructors are
the three `assert` statements; `typeErrorNoneCall` models calling or
subscripting `None`. -/
inductive ProcError where
  | valueError (msg : String)
  | assertNoValue
  | assertNoEntryKey
  | assertNoEntryRelation
  | typeErrorNoneCall
deriving DecidableEq

/-- The per-property-type handler functions (`_process_has_telephone`,
`_process_has_email`, `_process_multi_value_entry`, `_process_literal`,
`_process_literal_date`, `_process_url`). -/
inductive PropHandler where
  | hasTelephone
  | hasEmail
  | multiValueEntry
  | literal
  | literalDate
  | url
deriving DecidableEq

/-- Function `_to_telephone_uri`: `'<tel:%s>' % normalize_phone_number(phoneNo)`;
when normalization returns `None`, Python's `%s` renders the text `None`
inside the URI. -/
def _to_telephone_uri (phoneNo : String) : String :=
  "<tel:" ++ (match IAddressBook2RDF.normalize_phone_number phoneNo none with
              | some s => s
              | none => "None") ++ ">"

/-- Result of `_get_mv_property_type_qname`: a `(relation, handler)` pair
for the nine known codes, or (on `KeyError`) the bare string
`'abp:x-prop_%s' % mv_property`. -/
inductive PropTypeResult where
  | pair (relation : String) (handler : PropHandler)
  | fallback (qname : String)
deriving DecidableEq

/-- The `prop_type_map` dict of `_get_mv_property_type_qname`, in source
order. -/
def prop_type_map : List (Int × (String × PropHandler)) :=
  [(3, ("vcard:hasTelephone", .hasTelephone)),
   (4, ("vcard:hasEmail", .hasEmail)),
   (5, ("vcard:hasAddress", .multiValueEntry)),
   (16, ("vcard:sound", .literal)),
   (22, ("vcard:url", .url)),
   (23, ("abp:relatedName", .literal)),
   (12, ("abp:relatedDate", .literalDate)),
   (46, ("abp:socialProfile", .multiValueEntry)),
   (13, ("vcard:hasInstantMessage", .multiValueEntry))]

def _get_mv_property_type_qname (mv_property : Int) : PropTypeResult :=
  match listDictGet? prop_type_map mv_property with
  | some rf => .pair rf.1 rf.2
  | none => .fallback ("abp:x-prop_" ++ toString mv_property)

/-- Apply a property handler to the current group dict
(`current_prop_func(curPropDict, mval or mv_subval, mve_relation)`). -/
def applyHandler (f : PropHandler) (d : List (String × String)) (val : String)
    (mve_relation : Option String) : Except ProcError (List (String × String)) :=
  match f with
  | .hasTelephone => .ok (listDictSet d "vcard:hasValue" (_to_telephone_uri val))
  | .hasEmail => .ok (listDictSet d "vcard:hasValue" ("<mailto:" ++ val ++ ">"))
  | .url => .ok (listDictSet d "vcard:hasValue" (format_uri val))
  | .literal => .ok (listDictSet d "vcard:hasValue" (format_literal (some val)))
  | .literalDate =>
    match pyFloatSecs? val with
    | none => .error (.valueError "float")
    | some n =>
      .ok (listDictSet d "vcard:hasValue"
            (format_literal (some (apple_date_to_iso_8601_month_day n))))
  | .multiValueEntry =>
    if !pyTruthyS mve_relation then .error .assertNoEntryRelation
    else
      let r := mve_relation.getD ""
      if r = "vcard:url" then .ok (listDictSet d r (format_uri val))
      else .ok (listDictSet d r (format_literal (some val)))

/-! ### The multi-value group reconstructor
(`ABPersonToRDF._process_person_multi_values`) -/

/-- One row of the flattened multi-value join, keeping exactly the columns
the loop reads: `row[0]` = `uid`, `row[1]` = `property` (the type code),
`row[3]` = `mval`, `row[4]` = `mvlabel2` (the label text), `row[5]` =
`mv_subval`, `row[6]` = `mve_key`. -/
structure MVRow where
  uid : Int
  property : Int
  mval : Option String
  mvlabel2 : Option String
  mv_subval : Option String
  mve_key : Option Int
deriving DecidableEq

/-- The loop state carried across rows, plus the `person.multivalues` dict
being populated.  `curKey` is the handle standing for the Python reference
`curPropDict` (`none` models `curPropDict = None`). -/
structure LoopState where
  last_mv_uid : Option Int
  current_prop_relation : Option String
  current_prop_func : Option PropHandler
  curKey : Option (Int × String)
  multivalues : List ((Int × String) × List (String × String))
deriving DecidableEq

/-- The fresh dict of a newly opened group: `{}` plus the optional
`'vcard:category'` entry decoded from the first row's label. -/
def categoryDict (row : MVRow) : List (String × String) :=
  match translate_category_label row.mvlabel2 with
  | some categ => if categ ≠ "" then listDictSet [] "vcard:category" categ else []
  | none => []

/-- The tail of the loop body, from `mval = row[3]` to the handler call and
`last_mv_uid = uid`. -/
def process_row_value (mveM : List (Int × String)) (st : LoopState) (row : MVRow) :
    Except ProcError LoopState :=
  if !(pyTruthyS row.mval || pyTruthyS row.mv_subval) then .error .assertNoValue
  else if pyTruthyS row.mv_subval && !pyTruthyI row.mve_key then .error .assertNoEntryKey
  else
    let mve_relation : Option String :=
      if pyTruthyS row.mv_subval then listDictGet? mveM (row.mve_key.getD 0) else none
    let v := if pyTruthyS row.mval then row.mval.getD "" else row.mv_subval.getD ""
    match st.current_prop_func, st.curKey with
    | some f, some key =>
      match applyHandler f ((listDictGet? st.multivalues key).getD []) v mve_relation with
      | .error e => .error e
      | .ok d =>
        .ok { st with multivalues := listDictSet st.multivalues key d,
                      last_mv_uid := some row.uid }
    | _, _ => .error .typeErrorNoneCall

/-- One iteration of the row loop.  On a new group id the property type is
resolved; the string fallback of `_get_mv_property_type_qname` (length at
least 12) cannot be unpacked into the 2-tuple
`current_prop_relation, current_prop_func`, so that case raises
`ValueError`.  A falsy resolved relation skips rows without updating
`last_mv_uid` (the `continue` branches). -/
def process_mv_row (mveM : List (Int × String)) (st : LoopState) (row : MVRow) :
    Except ProcError LoopState :=
  if st.last_mv_uid ≠ some row.uid then
    match _get_mv_property_type_qname row.property with
    | .fallback s => .error (.valueError s)
    | .pair rel f =>
      if rel = "" then
        .ok { st with current_prop_relation := some rel, current_prop_func := some f,
                      curKey := none }
      else
        process_row_value mveM
          { last_mv_uid := st.last_mv_uid,
            current_prop_relation := some rel,
            current_prop_func := some f,
            curKey := some (row.uid, rel),
            multivalues := listDictSet st.multivalues (row.uid, rel) (categoryDict row) } row
  else
    match st.current_prop_relation with
    | none => .ok st
    | some rel => if rel = "" then .ok st else process_row_value mveM st row

/-- The row loop. -/
def processRows (mveM : List (Int × String)) :
    LoopState → List MVRow → Except ProcError LoopState
  | st, [] => .ok st
  | st, row :: rows =>
    match process_mv_row mveM st row with
    | .error e => .error e
    | .ok st' => processRows mveM st' rows

def initLoopState : LoopState := ⟨none, none, none, none, []⟩

/-- Function `_process_person_multi_values`: run the loop over the ordered row stream
of one person and return the populated `person.multivalues`. -/
def _process_person_multi_values (mveM : List (Int × String)) (rows : List MVRow) :
    Except ProcError (List ((Int × String) × List (String × String))) :=
  (processRows mveM initLoopState rows).map LoopState.multivalues

/-- The `remap` table of `_build_multi_value_entry_map`. -/
def ab_multi_value_entry_remap : List (String × String) :=
  [("Street", "vcard:street-address"), ("Country", "vcard:country-name"),
   ("ZIP", "vcard:postal-code"), ("City", "vcard:locality"),
   ("State", "vcard:region"), ("CountryCode", "gn:countryCode"),
   ("username", "abp:username"), ("service", "abp:service"), ("url", "vcard:url")]

/-- Function `_build_multi_value_entry_map` over the `(ROWID, value)` rows of
`ABMultiValueEntryKey`: known key names are remapped, unknown ones get the
synthesized `abp:` predicate. -/
def _build_multi_value_entry_map (rows : List (Int × String)) : List (Int × String) :=
  rows.foldl
    (fun m r =>
      listDictSet m r.1 ((listDictGet? ab_multi_value_entry_remap r.2).getD ("abp:" ++ r.2)))
    []

/-! ### The entity structure and the serializer (`ABPerson`) -/

structure ABPerson where
  id : Int
  values : List (String × String)
  multivalues : List ((Int × String) × List (String × String))
deriving DecidableEq

/-- Strip both edges of a character list while the predicate holds (the
shape of Python `str.strip`). -/
def dropEdges (p : Char → Bool) (cs : List Char) : List Char :=
  ((cs.dropWhile p).reverse.dropWhile p).reverse

/-- Python `s.strip('"')`. -/
def pyStripQuotes (s : String) : String :=
  (dropEdges (fun c => c == '"') s.toList).asString

/-- Python whitespace (ASCII model). -/
def py_space_chars : List Char := [' ', '\t', '\n', '\r', '\x0b', '\x0c']

/-- Python `s.strip()`. -/
def pyStripWhitespace (s : String) : String :=
  (dropEdges (fun c => py_space_chars.contains c) s.toList).asString

/-- Method `ABPerson.generate_formatted_name`: join the quote-stripped given,
additional and family names (a space is appended after each nonempty
partial result), fall back to the organization name when that is empty,
strip, and store as `vcard:fn` when nonempty. -/
def generate_formatted_name (p : ABPerson) : ABPerson :=
  let fn := match listDictGet? p.values "vcard:given-name" with
    | some v => pyStripQuotes v
    | none => ""
  let fn := if fn ≠ "" then fn ++ " " else fn
  let fn := fn ++ (match listDictGet? p.values "vcard:additional-name" with
    | some v => pyStripQuotes v
    | none => "")
  let fn := if fn ≠ "" then fn ++ " " else fn
  let fn := fn ++ (match listDictGet? p.values "vcard:family-name" with
    | some v => pyStripQuotes v
    | none => "")
  let fn := if fn = "" then
      fn ++ (match listDictGet? p.values "vcard:organization-name" with
        | some v => pyStripQuotes v
        | none => "")
    else fn
  let fn := pyStripWhitespace fn
  if fn ≠ "" then { p with values := listDictSet p.values "vcard:fn" (format_literal (some fn)) }
  else p

/-- Method `ABPerson.output_ntriples`: one statement per scalar attribute, then for
each non-empty group one relation-link statement followed by one statement
per group property. -/
def output_ntriples (bnode_tag : String) (p : ABPerson) : List Triple :=
  let pb := "_:" ++ bnode_tag ++ "p" ++ toString p.id
  (p.values.map fun kv => output_triple pb kv.1 kv.2) ++
    (p.multivalues.flatMap fun e =>
      if e.2 = [] then []
      else
        let mb := pb ++ "m" ++ toString e.1.1
        output_triple pb e.1.2 mb :: e.2.map fun m => output_triple mb m.1 m.2)

/-! ### Definitions used only in theorem statements -/

/-- The property key that the group's handler records for a row: the
multi-value-entry handler uses the resolved sub-entry relation, every other
handler writes `'vcard:hasValue'`. -/
def rowKey (mveM : List (Int × String)) (f : PropHandler) (row : MVRow) : Option String :=
  match f with
  | .multiValueEntry =>
    if pyTruthyS row.mv_subval then listDictGet? mveM (row.mve_key.getD 0) else none
  | _ => some "vcard:hasValue"

/-- The row is processed as part of a resolved group: either it continues
the current group (same group id, truthy current relation) or it opens a new
group whose property-type code resolves in the lookup table. -/
def group_resolved (st : LoopState) (row : MVRow) : Prop :=
  if st.last_mv_uid = some row.uid then
    ∃ rel, st.current_prop_relation = some rel ∧ rel ≠ ""
  else
    ∃ rel f, _get_mv_property_type_qname row.property = .pair rel f ∧ rel ≠ ""

/-- Invariant while one group is being reconstructed from the initial state:
the loop cursor points at the single group opened so far. -/
def GroupInv (g : Int) (rel : String) (f : PropHandler)
    (props : List (String × String)) (st : LoopState) : Prop :=
  st.last_mv_uid = some g ∧ st.current_prop_relation = some rel ∧
  st.current_prop_func = some f ∧ st.curKey = some (g, rel) ∧
  st.multivalues = [((g, rel), props)]

/-- Characters that keep the formatted-name computation transparent: not a
quote, backslash, newline or whitespace character. -/
def plain_char (c : Char) : Bool :=
  !(c == '"' || c == '\\' || c == '\n' || py_space_chars.contains c)

/-- Sample two-row e-mail group instantiating the round-trip theorem. -/
def c5_sample_row0 : MVRow := ⟨4, 4, some "a@b", none, none, none⟩

def c5_sample_row1 : MVRow := ⟨4, 4, some "c@d", none, none, none⟩

/-- The loop state reached after processing the two sample e-mail rows. -/
def c5_sample_st : LoopState :=
  ⟨some 4, some "vcard:hasEmail", some .hasEmail, some (4, "vcard:hasEmail"),
   [((4, "vcard:hasEmail"), [("vcard:hasValue", "<mailto:c@d>")])]⟩

/-- Sample state instantiating the group-boundary theorem: one finished
telephone group. -/
def c6_sample_st0 : LoopState :=
  ⟨some 1, some "vcard:hasTelephone", some .hasTelephone, some (1, "vcard:hasTelephone"),
   [((1, "vcard:hasTelephone"), [("vcard:hasValue", "<tel:5551234>")])]⟩

/-- A row with a different group id but the same relation kind (telephone). -/
def c6_sample_row : MVRow := ⟨2, 3, some "5550000", none, none, none⟩

/-- The state after the boundary row: a second group has been opened. -/
def c6_sample_st1 : LoopState :=
  ⟨some 2, some "vcard:hasTelephone", some .hasTelephone, some (2, "vcard:hasTelephone"),
   [((1, "vcard:hasTelephone"), [("vcard:hasValue", "<tel:5551234>")]),
    ((2, "vcard:hasTelephone"), [("vcard:hasValue", "<tel:5550000>")])]⟩

/-! ### Helper lemmas about the phone pipeline -/

theorem trunk_step_special (c : Option String) (sp : String × Bool) :
    trunk_step c true sp = sp := by
  simp [trunk_step]

theorem finish_phone_special (sp : String × Bool) :
    finish_phone true sp = sp.1 := by
  simp [finish_phone]

/-! ### Claim theorems -/

/-- Claim C1 (code bug): an unmapped multi-value property-type code such as 99
does reach the synthesized fallback string `abp:x-prop_99`, but the caller
of `_get_mv_property_type_qname` unpacks the result into the 2-tuple
`current_prop_relation, current_prop_func`; the fallback string has more
than two characters, so the unpack raises `ValueError` and the run aborts —
no statement with the fallback predicate is ever emitted, contradicting the
claim that processing continues non-fatally. -/
theorem c1_unknown_property_type_is_fatal :
    _get_mv_property_type_qname 99 = .fallback "abp:x-prop_99" ∧
    2 < strLen "abp:x-prop_99" ∧
    _process_person_multi_values [] [⟨10, 99, some "v", none, none, none⟩] =
      .error (.valueError "abp:x-prop_99") :=
  ⟨rfl, by decide, rfl⟩

/-- Claim C2 (counterexample): `normalize_phone_number("5550100",
countryCallingCode="1")` returns `"5550100"` unchanged, not `"+15550100"`:
the number does not start with the trunk prefix `"1"`, and the trunk
replacement only fires when the number starts with the trunk. -/
theorem c2_counterexample :
    PhoneNumberUtils.normalize_phone_number "5550100" (some "1") false = some "5550100" ∧
    some "5550100" ≠ some "+15550100" :=
  ⟨by decide, by decide⟩

/-- Claim C2 (amended): with `countryCallingCode="1"`, the local number
`"5550100"` is returned unchanged because it does not begin with the trunk
prefix `"1"`; the trunk is stripped and the calling code prepended only for
numbers that do begin with the trunk, e.g. `"15550100" ↦ "+15550100"` (in
both copies of the function). -/
theorem c2_trunk_replacement_requires_trunk :
    PhoneNumberUtils.normalize_phone_number "5550100" (some "1") false = some "5550100" ∧
    PhoneNumberUtils.normalize_phone_number "15550100" (some "1") false = some "+15550100" ∧
    IAddressBook2RDF.normalize_phone_number "15550100" (some "1") = some "+15550100" :=
  ⟨by decide, by decide, by decide⟩

/-- Claim C4 (counterexample): in the `iAddressBook2RDF.py` copy of
`normalize_phone_number` the prefix loop has no `break`, so on input
`"0010012345"` it strips `'001'` and then also `'00'` from the remainder,
returning `"+12345"` — two sequences are removed, not at most one
(one-strip behavior would give `"+0012345"`, as the `PhoneNumberUtils.py`
copy does). -/
theorem c4_counterexample :
    IAddressBook2RDF.normalize_phone_number "0010012345" none = some "+12345" ∧
    strip_calling_codes_cascade calling_prefixes ("0010012345", false) = ("12345", true) ∧
    strip_first_calling_code calling_prefixes "0010012345" = ("0012345", true) ∧
    some "+12345" ≠ some "+0012345" :=
  ⟨by decide, by decide, by decide, by decide⟩

/-- Claim C4 (amended): in `PhoneNumberUtils.normalize_phone_number` the first
listed matching escape sequence is stripped and the loop breaks, so at most
one prefix is removed; the copy of the loop in `iAddressBook2RDF.py` lacks
the `break` and keeps testing the later-listed sequences against the
remainder, so it can strip more than one (e.g. `"0010012345"` loses both
`'001'` and `'00'`). -/
theorem c4_first_match_only_in_utils (s p : String)
    (hp : calling_prefixes.find? (fun q => strBeginsWith s q) = some p) :
    strip_first_calling_code calling_prefixes s = (strDrop s (strLen p), true) ∧
    PhoneNumberUtils.normalize_phone_number "0010012345" none false = some "+0012345" ∧
    IAddressBook2RDF.normalize_phone_number "0010012345" none = some "+12345" :=
  ⟨by simp [strip_first_calling_code, hp], by decide, by decide⟩

theorem c4_first_match_only_in_utils_witness :
    strip_first_calling_code calling_prefixes "0010012345" = ("0012345", true) := by
  have h := (c4_first_match_only_in_utils "0010012345" "001" (by rfl)).1
  rw [h]
  decide

/-- Claim C7: a number classified as special (cleaned value shorter than 5
characters or containing `*` or `#`) is never `+`-prefixed: the result is
exactly the cleaned, escape-stripped value, independent of any supplied
country calling code, in both copies of the function; in particular
`normalize_phone_number("*67")` is returned unchanged for every country
code. -/
theorem c7_special_numbers_never_plus_prefixed (s : String) (c : Option String)
    (hs : isSpecialPhone (stripTelScheme (cleanPhone s)) = true) :
    (IAddressBook2RDF.normalize_phone_number s c =
      IAddressBook2RDF.normalize_phone_number s none) ∧
    (∀ r, IAddressBook2RDF.normalize_phone_number s c = some r →
        r = (intl_len_heuristic
              (strip_calling_codes_cascade calling_prefixes
                (stripTelScheme (cleanPhone s), false))).1) ∧
    (∀ b, PhoneNumberUtils.normalize_phone_number s c b =
        PhoneNumberUtils.normalize_phone_number s none b) ∧
    IAddressBook2RDF.normalize_phone_number "*67" c = some "*67" := by
  refine ⟨?_, ?_, ?_, ?_⟩
  · simp [IAddressBook2RDF.normalize_phone_number, hs, trunk_step_special,
      finish_phone_special]
  · intro r hr
    simp only [IAddressBook2RDF.normalize_phone_number, hs, trunk_step_special,
      finish_phone_special] at hr
    by_cases hd : pyIsDigit (removePlusStarHash (stripTelScheme (cleanPhone s))) = true
    · simp [hd] at hr
      exact hr.symm
    · simp [Bool.not_eq_true] at hd
      simp [hd] at hr
  · intro b
    simp [PhoneNumberUtils.normalize_phone_number, hs, trunk_step_special,
      finish_phone_special]
  · have h67 : isSpecialPhone (stripTelScheme (cleanPhone "*67")) = true := by decide
    simp [IAddressBook2RDF.normalize_phone_number, h67, trunk_step_special,
      finish_phone_special]
    decide

theorem c7_special_numbers_never_plus_prefixed_witness :
    IAddressBook2RDF.normalize_phone_number "*67" (some "44") = some "*67" :=
  (c7_special_numbers_never_plus_prefixed "*67" (some "44") (by decide)).2.2.2

/-- Claim C9: when phone normalization fails (returns `None` because the
cleaned value minus `+`, `*`, `#` is not all digits), the telephone handler
neither drops the field nor aborts: it still records a `vcard:hasValue`
entry whose object is the URI token `<tel:None>` (the Python `None`
rendered as text by `'%s'`). -/
theorem c9_failed_normalization_still_recorded (v : String)
    (d : List (String × String)) (mr : Option String)
    (h : IAddressBook2RDF.normalize_phone_number v none = none) :
    _to_telephone_uri v = "<tel:None>" ∧
    applyHandler .hasTelephone d v mr = .ok (listDictSet d "vcard:hasValue" "<tel:None>") := by
  have h1 : _to_telephone_uri v = "<tel:None>" := by
    unfold _to_telephone_uri
    rw [h]
    rfl
  exact ⟨h1, by simp [applyHandler, h1]⟩

theorem c9_failed_normalization_still_recorded_witness :
    IAddressBook2RDF.normalize_phone_number "abc12" none = none ∧
    _to_telephone_uri "abc12" = "<tel:None>" ∧
    applyHandler .hasTelephone [] "abc12" none =
      .ok (listDictSet [] "vcard:hasValue" "<tel:None>") :=
  ⟨by decide, (c9_failed_normalization_still_recorded "abc12" [] none (by decide)).1,
    (c9_failed_normalization_still_recorded "abc12" [] none (by decide)).2⟩

/-- Claim C3 (counterexample): the label `_$!<Mobile>!$_` on the first row of
a phone group yields only the literal category tag
`('vcard:category', '"Mobile"')` — `translate_category_label` has no
label-to-canonical-type table, so "Mobile" does not produce a cell-phone
type marker and is treated exactly like an unrecognized label. -/
theorem c3_counterexample :
    translate_category_label (some "_$!<Mobile>!$_") = some "\"Mobile\"" ∧
    translate_category_label (some "WorkFAX") = some "\"WorkFAX\"" ∧
    translate_category_label (some "totally-unknown") = some "\"totally-unknown\"" ∧
    _process_person_multi_values [] [⟨1, 3, some "5551234", some "_$!<Mobile>!$_", none, none⟩] =
      .ok [((1, "vcard:hasTelephone"),
            [("vcard:category", "\"Mobile\""), ("vcard:hasValue", "<tel:5551234>")])] :=
  ⟨rfl, rfl, rfl, rfl⟩

theorem applyHandler_ne_assertNoValue (f : PropHandler) (d : List (String × String))
    (val : String) (mr : Option String) :
    applyHandler f d val mr ≠ Except.error ProcError.assertNoValue := by
  cases f <;> simp only [applyHandler]
  case hasTelephone => simp
  case hasEmail => simp
  case url => simp
  case literal => simp
  case literalDate => cases hpf : pyFloatSecs? val <;> simp
  case multiValueEntry =>
    by_cases h : pyTruthyS mr = true
    · simp only [h]
      by_cases hr : mr.getD "" = "vcard:url" <;> simp [hr]
    · simp only [Bool.not_eq_true] at h
      simp [h]

theorem process_row_value_assert (mveM : List (Int × String)) (st : LoopState) (row : MVRow) :
    (pyTruthyS row.mval = false → pyTruthyS row.mv_subval = false →
        process_row_value mveM st row = Except.error ProcError.assertNoValue) ∧
    ((pyTruthyS row.mval = true ∨ pyTruthyS row.mv_subval = true) →
        process_row_value mveM st row ≠ Except.error ProcError.assertNoValue) := by
  constructor
  · intro h1 h2
    unfold process_row_value
    simp [h1, h2]
  · intro hv
    have hcond : (pyTruthyS row.mval || pyTruthyS row.mv_subval) = true := by
      rcases hv with h | h <;> simp [h]
    unfold process_row_value
    simp only [hcond, Bool.not_true, Bool.false_eq_true, if_false]
    by_cases hkc : (pyTruthyS row.mv_subval && !pyTruthyI row.mve_key) = true
    · rw [if_pos hkc]
      simp
    · rw [if_neg hkc]
      split
      · split
        next e heq =>
          intro hcontra
          have he : e = ProcError.assertNoValue := by simpa using hcontra
          subst he
          exact applyHandler_ne_assertNoValue _ _ _ _ heq
        next d heq => simp
      · simp

/-- Claim C8: for a row processed as part of a resolved group, carrying
neither a (truthy) direct value nor a (truthy) sub-entry value makes the
loop fail fast on `assert(mval or mv_subval)` — a fatal `AssertionError` —
while a row with at least one of the two values never triggers that
assertion. -/
theorem c8_missing_values_assert (mveM : List (Int × String)) (st : LoopState) (row : MVRow)
    (hres : group_resolved st row) :
    (pyTruthyS row.mval = false → pyTruthyS row.mv_subval = false →
        process_mv_row mveM st row = Except.error ProcError.assertNoValue) ∧
    ((pyTruthyS row.mval = true ∨ pyTruthyS row.mv_subval = true) →
        process_mv_row mveM st row ≠ Except.error ProcError.assertNoValue) := by
  unfold group_resolved at hres
  by_cases hu : st.last_mv_uid = some row.uid
  · rw [if_pos hu] at hres
    obtain ⟨rel, hrel, hne⟩ := hres
    have hstep : process_mv_row mveM st row = process_row_value mveM st row := by
      unfold process_mv_row
      rw [if_neg (by simp [hu]), hrel]
      simp [hne]
    rw [hstep]
    exact process_row_value_assert mveM st row
  · rw [if_neg hu] at hres
    obtain ⟨rel, f, hlook, hne⟩ := hres
    have hstep : process_mv_row mveM st row =
        process_row_value mveM
          { last_mv_uid := st.last_mv_uid,
            current_prop_relation := some rel,
            current_prop_func := some f,
            curKey := some (row.uid, rel),
            multivalues := listDictSet st.multivalues (row.uid, rel) (categoryDict row) }
          row := by
      unfold process_mv_row
      rw [if_pos hu, hlook]
      simp [hne]
    rw [hstep]
    exact process_row_value_assert mveM _ row

theorem c8_missing_values_assert_witness :
    process_mv_row []
        ⟨some 3, some "vcard:hasEmail", some PropHandler.hasEmail,
          some (3, "vcard:hasEmail"), [((3, "vcard:hasEmail"), [])]⟩
        ⟨3, 4, none, none, none, none⟩ = Except.error ProcError.assertNoValue := by
  refine (c8_missing_values_assert []
      ⟨some 3, some "vcard:hasEmail", some PropHandler.hasEmail,
        some (3, "vcard:hasEmail"), [((3, "vcard:hasEmail"), [])]⟩
      ⟨3, 4, none, none, none, none⟩ ?_).1 rfl rfl
  unfold group_resolved
  rw [if_pos rfl]
  exact ⟨"vcard:hasEmail", rfl, by decide⟩

theorem listDictGet?_mem {α β : Type} [DecidableEq α] (d : List (α × β)) (k : α) (b : β)
    (h : listDictGet? d k = some b) : (k, b) ∈ d := by
  induction d with
  | nil => simp [listDictGet?] at h
  | cons kv rest ih =>
    by_cases hk : kv.1 = k
    · simp only [listDictGet?, hk, if_pos, Option.some.injEq] at h
      subst h
      subst hk
      exact List.mem_cons_self _ _
    · simp only [listDictGet?, hk, if_false] at h
      exact List.mem_cons_of_mem _ (ih h)

theorem prop_type_relation_ne_empty (p : Int) (rel : String) (f : PropHandler)
    (h : _get_mv_property_type_qname p = .pair rel f) : rel ≠ "" := by
  unfold _get_mv_property_type_qname at h
  cases hl : listDictGet? prop_type_map p with
  | none => rw [hl] at h; simp at h
  | some rf =>
    rw [hl] at h
    simp only [PropTypeResult.pair.injEq] at h
    obtain ⟨h1, h2⟩ := h
    have hmem := listDictGet?_mem _ _ _ hl
    subst h1
    simp only [prop_type_map, List.mem_cons, List.not_mem_nil, or_false,
      Prod.mk.injEq] at hmem
    rcases hmem with h | h | h | h | h | h | h | h | h <;> rw [h.2] <;> decide

theorem pyTruthyS_some (mr : Option String) (h : pyTruthyS mr = true) :
    ∃ s, mr = some s ∧ s ≠ "" := by
  cases mr with
  | none => simp [pyTruthyS] at h
  | some s => exact ⟨s, rfl, by simpa [pyTruthyS] using h⟩

theorem rowKey_non_mve (mveM : List (Int × String)) (row : MVRow) (f : PropHandler)
    (h : f ≠ PropHandler.multiValueEntry) :
    rowKey mveM f row = some "vcard:hasValue" := by
  cases f <;> first
    | rfl
    | exact absurd rfl h

theorem categoryDict_keys_nodup (row : MVRow) :
    ((categoryDict row).map Prod.fst).Nodup := by
  unfold categoryDict
  cases translate_category_label row.mvlabel2 with
  | none => simp
  | some c =>
    by_cases hc : c = ""
    · simp [hc]
    · simp [hc, listDictSet]

theorem applyHandler_ok_shape (f : PropHandler) (d : List (String × String)) (val : String)
    (mr : Option String) (d' : List (String × String))
    (h : applyHandler f d val mr = .ok d') :
    ∃ k w, d' = listDictSet d k w ∧
      ((f = PropHandler.multiValueEntry ∧ mr = some k ∧ k ≠ "") ∨
       (f ≠ PropHandler.multiValueEntry ∧ k = "vcard:hasValue")) := by
  cases f <;> simp only [applyHandler] at h
  case hasTelephone =>
    injection h with h'
    exact ⟨"vcard:hasValue", _to_telephone_uri val, h'.symm, .inr ⟨by simp, rfl⟩⟩
  case hasEmail =>
    injection h with h'
    exact ⟨"vcard:hasValue", "<mailto:" ++ val ++ ">", h'.symm, .inr ⟨by simp, rfl⟩⟩
  case url =>
    injection h with h'
    exact ⟨"vcard:hasValue", format_uri val, h'.symm, .inr ⟨by simp, rfl⟩⟩
  case literal =>
    injection h with h'
    exact ⟨"vcard:hasValue", format_literal (some val), h'.symm, .inr ⟨by simp, rfl⟩⟩
  case literalDate =>
    cases hpf : pyFloatSecs? val with
    | none => rw [hpf] at h; simp at h
    | some n =>
      rw [hpf] at h
      injection h with h'
      exact ⟨"vcard:hasValue", format_literal (some (apple_date_to_iso_8601_month_day n)),
        h'.symm, .inr ⟨by simp, rfl⟩⟩
  case multiValueEntry =>
    by_cases ht : pyTruthyS mr = true
    · obtain ⟨s, hmr, hs⟩ := pyTruthyS_some mr ht
      subst hmr
      simp only [ht, Bool.not_true, Bool.false_eq_true, if_false, Option.getD_some] at h
      by_cases hr : s = "vcard:url"
      · rw [if_pos hr] at h
        injection h with h'
        exact ⟨s, format_uri val, h'.symm, .inl ⟨rfl, rfl, hs⟩⟩
      · rw [if_neg hr] at h
        injection h with h'
        exact ⟨s, format_literal (some val), h'.symm, .inl ⟨rfl, rfl, hs⟩⟩
    · simp only [Bool.not_eq_true] at ht
      simp [ht] at h

theorem process_row_value_ok_shape (mveM : List (Int × String)) (st st' : LoopState)
    (row : MVRow) (hok : process_row_value mveM st row = .ok st') :
    ∃ f key mr d',
      st.current_prop_func = some f ∧ st.curKey = some key ∧
      applyHandler f ((listDictGet? st.multivalues key).getD [])
        (if pyTruthyS row.mval = true then row.mval.getD "" else row.mv_subval.getD "") mr
        = .ok d' ∧
      st' = { st with multivalues := listDictSet st.multivalues key d',
                      last_mv_uid := some row.uid } ∧
      (f = PropHandler.multiValueEntry → rowKey mveM f row = mr) := by
  unfold process_row_value at hok
  by_cases hval : (pyTruthyS row.mval || pyTruthyS row.mv_subval) = true
  case neg =>
    simp only [Bool.not_eq_true] at hval
    simp [hval] at hok
  case pos =>
    simp only [hval, Bool.not_true, Bool.false_eq_true, if_false] at hok
    by_cases hkc : (pyTruthyS row.mv_subval && !pyTruthyI row.mve_key) = true
    · rw [if_pos hkc] at hok
      simp at hok
    · rw [if_neg hkc] at hok
      split at hok
      next f key hf hkey =>
        split at hok
        next e heq => simp at hok
        next d' heq =>
          simp only [Except.ok.injEq] at hok
          refine ⟨f, key,
            (if pyTruthyS row.mv_subval = true then listDictGet? mveM (row.mve_key.getD 0)
             else none), d', hf, hkey, heq, hok.symm, fun hfm => ?_⟩
          simp [rowKey, hfm]
      next => simp at hok

theorem rowKey_mem_of_shape (mveM : List (Int × String)) (row : MVRow) (f : PropHandler)
    (mr : Option String) (base : List (String × String)) (k w : String)
    (hmve : f = PropHandler.multiValueEntry → rowKey mveM f row = mr)
    (hcases : (f = PropHandler.multiValueEntry ∧ mr = some k ∧ k ≠ "") ∨
              (f ≠ PropHandler.multiValueEntry ∧ k = "vcard:hasValue")) :
    ∀ k', rowKey mveM f row = some k' → k' ∈ (listDictSet base k w).map Prod.fst := by
  intro k' hk'
  rcases hcases with ⟨hfm, hmr, -⟩ | ⟨hfnm, hkval⟩
  · rw [hmve hfm, hmr] at hk'
    injection hk' with h
    subst h
    exact listDictSet_mem_keys base k w
  · rw [rowKey_non_mve mveM row f hfnm] at hk'
    injection hk' with h
    subst h
    rw [hkval]
    exact listDictSet_mem_keys base _ w

theorem process_step_same_group (mveM : List (Int × String)) (g : Int) (rel : String)
    (f : PropHandler) (props : List (String × String)) (st st' : LoopState) (row : MVRow)
    (hrelne : rel ≠ "") (hinv : GroupInv g rel f props st) (huid : row.uid = g)
    (hok : process_mv_row mveM st row = .ok st') :
    ∃ props', GroupInv g rel f props' st' ∧
      props' ≠ [] ∧
      (∀ a, a ∈ props.map Prod.fst → a ∈ props'.map Prod.fst) ∧
      ((props.map Prod.fst).Nodup → (props'.map Prod.fst).Nodup) ∧
      (∀ k, rowKey mveM f row = some k → k ∈ props'.map Prod.fst) := by
  obtain ⟨hlast, hrel, hfunc, hkey, hmv⟩ := hinv
  have hstep : process_mv_row mveM st row = process_row_value mveM st row := by
    unfold process_mv_row
    rw [if_neg (by simp [hlast, huid]), hrel]
    simp [hrelne]
  rw [hstep] at hok
  obtain ⟨f', key', mr, d', hf', hkey', hap, hst', hmve⟩ :=
    process_row_value_ok_shape mveM st st' row hok
  rw [hfunc] at hf'
  injection hf' with hff
  subst hff
  rw [hkey] at hkey'
  injection hkey' with hkk
  subst hkk
  rw [hmv] at hap hst'
  have hget : listDictGet? [((g, rel), props)] (g, rel) = some props := by
    simp [listDictGet?]
  rw [hget] at hap
  simp only [Option.getD_some] at hap
  have hset : listDictSet [((g, rel), props)] (g, rel) d' = [((g, rel), d')] := by
    simp [listDictSet]
  rw [hset] at hst'
  obtain ⟨k, w, hd', hcases⟩ := applyHandler_ok_shape _ _ _ _ _ hap
  subst hst'
  refine ⟨d', ⟨by simp [huid], hrel, hfunc, hkey, rfl⟩, ?_, ?_, ?_, ?_⟩
  · rw [hd']
    exact listDictSet_ne_nil props k w
  · intro a ha
    rw [hd']
    exact listDictSet_keys_mono props k a w ha
  · intro hnd
    rw [hd']
    exact listDictSet_keys_nodup props k w hnd
  · rw [hd']
    exact rowKey_mem_of_shape mveM row f mr props k w hmve hcases

theorem processRows_group_inv (mveM : List (Int × String)) (g : Int) (rel : String)
    (f : PropHandler) (hrelne : rel ≠ "") (rs : List MVRow) :
    ∀ (props : List (String × String)) (st st' : LoopState),
      GroupInv g rel f props st →
      (∀ r ∈ rs, r.uid = g) →
      processRows mveM st rs = .ok st' →
      ∃ props', GroupInv g rel f props' st' ∧
        (props ≠ [] → props' ≠ []) ∧
        (∀ a, a ∈ props.map Prod.fst → a ∈ props'.map Prod.fst) ∧
        ((props.map Prod.fst).Nodup → (props'.map Prod.fst).Nodup) ∧
        (∀ r ∈ rs, ∀ k, rowKey mveM f r = some k → k ∈ props'.map Prod.fst) := by
  induction rs with
  | nil =>
    intro props st st' hinv hall hok
    have hstst : st = st' := by
      simpa [processRows] using hok
    subst hstst
    exact ⟨props, hinv, fun h => h, fun a ha => ha, fun h => h, by simp⟩
  | cons r rs ih =>
    intro props st st' hinv hall hok
    unfold processRows at hok
    cases hstep : process_mv_row mveM st r with
    | error e => rw [hstep] at hok; simp at hok
    | ok st1 =>
      rw [hstep] at hok
      simp only [] at hok
      obtain ⟨props1, hinv1, hne1, hmono1, hnd1, hcov1⟩ :=
        process_step_same_group mveM g rel f props st st1 r hrelne hinv
          (hall r (List.mem_cons_self r rs)) hstep
      obtain ⟨props', hinv', hne', hmono', hnd', hcov'⟩ :=
        ih props1 st1 st' hinv1 (fun x hx => hall x (List.mem_cons_of_mem r hx)) hok
      refine ⟨props', hinv', fun _ => hne' hne1, fun a ha => hmono' a (hmono1 a ha),
        fun hnd => hnd' (hnd1 hnd), ?_⟩
      intro x hx k hk
      rcases List.mem_cons.mp hx with hxr | hxs
      · subst hxr
        exact hmono' k (hcov1 k hk)
      · exact hcov' x hxs k hk

theorem process_first_row_from_init (mveM : List (Int × String)) (st' : LoopState)
    (row : MVRow) (hok : process_mv_row mveM initLoopState row = .ok st') :
    ∃ rel f props, _get_mv_property_type_qname row.property = .pair rel f ∧ rel ≠ "" ∧
      GroupInv row.uid rel f props st' ∧ props ≠ [] ∧
      (props.map Prod.fst).Nodup ∧
      (∀ k, rowKey mveM f row = some k → k ∈ props.map Prod.fst) := by
  unfold process_mv_row at hok
  rw [if_pos (by simp [initLoopState])] at hok
  split at hok
  next s heq => simp at hok
  next rel f heq =>
    have hlook : _get_mv_property_type_qname row.property = .pair rel f := heq
    have hrelne : rel ≠ "" := prop_type_relation_ne_empty _ _ _ hlook
    rw [if_neg hrelne] at hok
    obtain ⟨f', key', mr, d', hf', hkey', hap, hst', hmve⟩ :=
      process_row_value_ok_shape mveM _ st' row hok
    simp only [Option.some.injEq] at hf' hkey'
    subst hf'
    subst hkey'
    simp only [initLoopState] at hap hst'
    have hset0 : listDictSet ([] : List ((Int × String) × List (String × String)))
        (row.uid, rel) (categoryDict row) = [((row.uid, rel), categoryDict row)] := by
      simp [listDictSet]
    rw [hset0] at hap hst'
    have hget : listDictGet? [((row.uid, rel), categoryDict row)] (row.uid, rel) =
        some (categoryDict row) := by
      simp [listDictGet?]
    rw [hget] at hap
    simp only [Option.getD_some] at hap
    have hset : listDictSet [((row.uid, rel), categoryDict row)] (row.uid, rel) d' =
        [((row.uid, rel), d')] := by
      simp [listDictSet]
    rw [hset] at hst'
    obtain ⟨k, w, hd', hcases⟩ := applyHandler_ok_shape _ _ _ _ _ hap
    subst hst'
    refine ⟨rel, f, d', hlook, hrelne, ⟨rfl, rfl, rfl, rfl, rfl⟩, ?_, ?_, ?_⟩
    · rw [hd']
      exact listDictSet_ne_nil _ k w
    · rw [hd']
      exact listDictSet_keys_nodup _ k w (categoryDict_keys_nodup row)
    · rw [hd']
      exact rowKey_mem_of_shape mveM row f mr (categoryDict row) k w hmve hcases

/-- Claim C5: feeding the ordered rows of one group (all with group id `g`,
processed from the initial state) through the reconstructor and then the
serializer yields exactly one relation-link statement
`(entityBlank, relationKind, groupBlank)` and exactly one statement per
distinct property key recorded in the group: the group's key list is
duplicate-free, every key recorded by an input row is present, and the
output is literally the link statement followed by one statement per key. -/
theorem c5_round_trip (mveM : List (Int × String)) (tag : String) (pid g : Int)
    (r0 : MVRow) (rest : List MVRow) (st : LoopState)
    (hsame : ∀ r ∈ r0 :: rest, r.uid = g)
    (hok : processRows mveM initLoopState (r0 :: rest) = .ok st) :
    ∃ rel f props,
      _get_mv_property_type_qname r0.property = .pair rel f ∧
      st.multivalues = [((g, rel), props)] ∧
      props ≠ [] ∧
      (props.map Prod.fst).Nodup ∧
      (∀ r ∈ r0 :: rest, ∀ k, rowKey mveM f r = some k → k ∈ props.map Prod.fst) ∧
      output_ntriples tag ⟨pid, [], st.multivalues⟩ =
        output_triple ("_:" ++ tag ++ "p" ++ toString pid) rel
            ("_:" ++ tag ++ "p" ++ toString pid ++ "m" ++ toString g) ::
          props.map (fun m =>
            output_triple ("_:" ++ tag ++ "p" ++ toString pid ++ "m" ++ toString g) m.1 m.2) := by
  unfold processRows at hok
  cases hstep : process_mv_row mveM initLoopState r0 with
  | error e => rw [hstep] at hok; simp at hok
  | ok st1 =>
    rw [hstep] at hok
    simp only [] at hok
    obtain ⟨rel, f, props0, hlook, hrelne, hinv0, hne0, hnd0, hcov0⟩ :=
      process_first_row_from_init mveM st1 r0 hstep
    have hg : r0.uid = g := hsame r0 (List.mem_cons_self _ _)
    rw [hg] at hinv0
    obtain ⟨props, hinv, hne, hmono, hnd, hcov⟩ :=
      processRows_group_inv mveM g rel f hrelne rest props0 st1 st hinv0
        (fun x hx => hsame x (List.mem_cons_of_mem _ hx)) hok
    obtain ⟨hlast, hrel, hfunc, hkey, hmv⟩ := hinv
    have hpne : props ≠ [] := hne hne0
    refine ⟨rel, f, props, hlook, hmv, hpne, hnd hnd0, ?_, ?_⟩
    · intro r hr k hk
      rcases List.mem_cons.mp hr with h0 | hs
      · subst h0
        exact hmono k (hcov0 k hk)
      · exact hcov r hs k hk
    · rw [hmv]
      simp [output_ntriples, hpne]

/-- Claim C6: the group-id change is the sole boundary signal of the streaming
group-by.  A row whose group id equals the previous row's is merged into the
current group (the cursor and the set of group keys are unchanged; only the
current group's dict is updated), while a row with a different group id
always opens a new group — a fresh dict built from that row alone,
registered under `(uid, relation)` and pointed to by a changed cursor — even
when the relation-kind lookup yields the same kind as the previous group. -/
theorem c6_group_boundary (mveM : List (Int × String)) (st st' : LoopState) (row : MVRow)
    (g : Int) (rel : String) (f : PropHandler)
    (hlast : st.last_mv_uid = some g)
    (hrel : st.current_prop_relation = some rel) (hrelne : rel ≠ "")
    (hfunc : st.current_prop_func = some f)
    (hkey : st.curKey = some (g, rel))
    (hmem : (g, rel) ∈ st.multivalues.map Prod.fst)
    (hok : process_mv_row mveM st row = .ok st') :
    (row.uid = g →
      st'.curKey = st.curKey ∧
      st'.multivalues.map Prod.fst = st.multivalues.map Prod.fst ∧
      ∃ d, st'.multivalues = listDictSet st.multivalues (g, rel) d) ∧
    (row.uid ≠ g →
      ∃ rel' f', _get_mv_property_type_qname row.property = .pair rel' f' ∧
        st'.curKey = some (row.uid, rel') ∧
        st'.curKey ≠ st.curKey ∧
        st'.last_mv_uid = some row.uid ∧
        ∃ k w, listDictGet? st'.multivalues (row.uid, rel') =
          some (listDictSet (categoryDict row) k w)) := by
  constructor
  · intro huid
    have hstep : process_mv_row mveM st row = process_row_value mveM st row := by
      unfold process_mv_row
      rw [if_neg (by simp [hlast, huid]), hrel]
      simp [hrelne]
    rw [hstep] at hok
    obtain ⟨f', key', mr, d', hf', hkey', hap, hst', hmve⟩ :=
      process_row_value_ok_shape mveM st st' row hok
    rw [hkey] at hkey'
    injection hkey' with hkk
    subst hkk
    subst hst'
    refine ⟨rfl, ?_, ⟨d', rfl⟩⟩
    rw [listDictSet_keys]
    simp [hmem]
  · intro huid
    have hnew : st.last_mv_uid ≠ some row.uid := by
      rw [hlast]
      intro hcontra
      injection hcontra with h
      exact huid h.symm
    unfold process_mv_row at hok
    rw [if_pos hnew] at hok
    split at hok
    next s heq => simp at hok
    next rel' f' heq =>
      have hlook : _get_mv_property_type_qname row.property = .pair rel' f' := heq
      have hrelne' : rel' ≠ "" := prop_type_relation_ne_empty _ _ _ hlook
      rw [if_neg hrelne'] at hok
      obtain ⟨f'', key'', mr, d', hf'', hkey'', hap, hst', hmve⟩ :=
        process_row_value_ok_shape mveM _ st' row hok
      simp only [Option.some.injEq] at hf'' hkey''
      subst hf''
      subst hkey''
      have hget : listDictGet? (listDictSet st.multivalues (row.uid, rel') (categoryDict row))
          (row.uid, rel') = some (categoryDict row) :=
        listDictGet?_set st.multivalues (row.uid, rel') (categoryDict row)
      rw [hget] at hap
      simp only [Option.getD_some] at hap
      obtain ⟨k, w, hd', hcases⟩ := applyHandler_ok_shape _ _ _ _ _ hap
      subst hst'
      refine ⟨rel', f', hlook, rfl, ?_, rfl, ⟨k, w, ?_⟩⟩
      · rw [hkey]
        intro hcontra
        injection hcontra with h
        exact huid (congrArg Prod.fst h)
      · rw [listDictSet_set]
        rw [listDictGet?_set]
        rw [hd']

/-- Claim C10 (counterexample): an entity with given name `Ann` and family
name `Smith` but no additional name gets `vcard:fn` `"Ann  Smith"` with a
double space — the code appends a separator space after the nonempty
partial result even when the additional name is absent — so the synthesized
value is not the space-joined components `"Ann Smith"`. -/
theorem c10_counterexample :
    listDictGet?
        (generate_formatted_name
          ⟨7, [("vcard:given-name", format_literal (some "Ann")),
               ("vcard:family-name", format_literal (some "Smith"))], []⟩).values
        "vcard:fn" = some "\"Ann  Smith\"" ∧
    some "\"Ann  Smith\"" ≠ some "\"Ann Smith\"" :=
  ⟨rfl, by decide⟩

theorem c5_round_trip_witness :
    output_ntriples "t" ⟨7, [], c5_sample_st.multivalues⟩ =
      output_triple ("_:" ++ "t" ++ "p" ++ toString (7 : Int)) "vcard:hasEmail"
          ("_:" ++ "t" ++ "p" ++ toString (7 : Int) ++ "m" ++ toString (4 : Int)) ::
        [(("vcard:hasValue" : String), ("<mailto:c@d>" : String))].map
          (fun m => output_triple
            ("_:" ++ "t" ++ "p" ++ toString (7 : Int) ++ "m" ++ toString (4 : Int))
            m.1 m.2) := by
  obtain ⟨rel, f, props, hlook, hmv, -, -, -, hout⟩ :=
    c5_round_trip [] "t" 7 4 c5_sample_row0 [c5_sample_row1] c5_sample_st
      (by
        intro r hr
        simp only [List.mem_cons, List.not_mem_nil, or_false] at hr
        rcases hr with h | h <;> subst h <;> rfl)
      (by rfl)
  have hmv' : [((4, "vcard:hasEmail"), [("vcard:hasValue", "<mailto:c@d>")])]
      = [(((4 : Int), rel), props)] := hmv
  injection hmv' with h1 h2
  have h3 : ((4 : Int), "vcard:hasEmail") = ((4 : Int), rel) := congrArg Prod.fst h1
  have hrel : "vcard:hasEmail" = rel := congrArg Prod.snd h3
  have hprops : [(("vcard:hasValue" : String), ("<mailto:c@d>" : String))] = props :=
    congrArg Prod.snd h1
  subst hrel
  subst hprops
  exact hout

theorem c6_group_boundary_witness :
    c6_sample_st1.curKey ≠ c6_sample_st0.curKey ∧
    c6_sample_st1.last_mv_uid = some 2 := by
  obtain ⟨rel', f', hlook, hck, hne, hlast, -⟩ :=
    (c6_group_boundary [] c6_sample_st0 c6_sample_st1 c6_sample_row 1 "vcard:hasTelephone"
      PropHandler.hasTelephone rfl rfl (by decide) rfl rfl (by decide) (by rfl)).2
      (by decide)
  exact ⟨hne, hlast⟩

/-! ### String lemmas for the formatted-name and category-label theorems -/

theorem asString_toList (s : String) : s.toList.asString = s := by
  cases s
  rfl

theorem strToList_append (a b : String) : (a ++ b).toList = a.toList ++ b.toList :=
  String.data_append a b

theorem toList_ne_nil (s : String) (h : s ≠ "") : s.toList ≠ [] := by
  intro hd
  apply h
  cases s
  simp only [String.toList] at hd
  subst hd
  rfl

theorem str_eq_empty_of_length_zero (s : String) (h : s.length = 0) : s = "" := by
  cases s with
  | mk data =>
    simp [String.length] at h
    subst h
    rfl

theorem append_ne_empty_right (x y : String) (hy : y ≠ "") : x ++ y ≠ "" := by
  intro h
  have h2 := congrArg String.length h
  rw [String.length_append] at h2
  have h0 : ("" : String).length = 0 := rfl
  have h3 : y.length = 0 := by omega
  exact hy (str_eq_empty_of_length_zero y h3)

theorem append_ne_empty_left (x y : String) (hx : x ≠ "") : x ++ y ≠ "" := by
  intro h
  have h2 := congrArg String.length h
  rw [String.length_append] at h2
  have h0 : ("" : String).length = 0 := rfl
  have h3 : x.length = 0 := by omega
  exact hx (str_eq_empty_of_length_zero x h3)

theorem quote_wrap_ne_empty (x : String) : "\"" ++ x ++ "\"" ≠ "" :=
  append_ne_empty_right _ _ (by decide)

theorem plain_char_spec (c : Char) (h : plain_char c = true) :
    ¬(c = '"') ∧ ¬(c = '\\') ∧ ¬(c = '\n') ∧ py_space_chars.contains c = false := by
  simp only [plain_char, Bool.not_eq_true', Bool.or_eq_false_iff] at h
  refine ⟨?_, ?_, ?_, h.2⟩
  · simpa using h.1.1.1
  · simpa using h.1.1.2
  · simpa using h.1.2

theorem escape_plain (cs : List Char) (h : ∀ c ∈ cs, plain_char c = true) :
    escape_literal_chars cs = cs := by
  induction cs with
  | nil => rfl
  | cons a m ih =>
    obtain ⟨h1, h2, h3, -⟩ := plain_char_spec a (h a (List.mem_cons_self a m))
    have hstep : escape_literal_chars (a :: m) =
        (if a = '\\' then ['\\', '\\'] else if a = '"' then ['\\', '"']
         else if a = '\n' then ['\\', 'n'] else [a]) ++ escape_literal_chars m := rfl
    rw [hstep, if_neg h2, if_neg h1, if_neg h3,
      ih (fun c hc => h c (List.mem_cons_of_mem a hc))]
    rfl

theorem dropWhile_all_false (p : Char → Bool) (l : List Char)
    (h : ∀ c ∈ l, p c = false) : List.dropWhile p l = l := by
  cases l with
  | nil => rfl
  | cons a m =>
    rw [List.dropWhile_cons, if_neg]
    simp [h a (List.mem_cons_self a m)]

theorem dropEdges_wrap (p : Char → Bool) (a b : Char) (cs : List Char)
    (ha : p a = true) (hb : p b = true) (hcs : ∀ c ∈ cs, p c = false) :
    dropEdges p (a :: (cs ++ [b])) = cs := by
  unfold dropEdges
  rw [List.dropWhile_cons, if_pos ha]
  cases cs with
  | nil =>
    rw [List.nil_append, List.dropWhile_cons, if_pos hb]
    rfl
  | cons c m =>
    rw [List.cons_append, List.dropWhile_cons,
      if_neg (by simp [hcs c (List.mem_cons_self c m)])]
    have hrev : (c :: (m ++ [b])).reverse = b :: (c :: m).reverse := by
      simp
    rw [hrev, List.dropWhile_cons, if_pos hb]
    rw [dropWhile_all_false p (c :: m).reverse
      (fun x hx => hcs x (by simpa using List.mem_reverse.mp hx))]
    simp

theorem dropEdges_eq_self (p : Char → Bool) (l : List Char)
    (h1 : ∀ c, l.head? = some c → p c = false)
    (h2 : ∀ c, l.getLast? = some c → p c = false) :
    dropEdges p l = l := by
  unfold dropEdges
  have hd : List.dropWhile p l = l := by
    cases l with
    | nil => rfl
    | cons a m =>
      rw [List.dropWhile_cons, if_neg]
      simp [h1 a rfl]
  rw [hd]
  have hr : List.dropWhile p l.reverse = l.reverse := by
    cases hrev : l.reverse with
    | nil => rfl
    | cons a m =>
      rw [List.dropWhile_cons, if_neg]
      have hla : l.getLast? = some a := by
        rw [← List.head?_reverse, hrev]
        rfl
      simp [h2 a hla]
  rw [hr, List.reverse_reverse]

theorem head?_mem {l : List Char} {c : Char} (h : l.head? = some c) : c ∈ l := by
  cases l with
  | nil => simp at h
  | cons a m =>
    simp only [List.head?_cons, Option.some.injEq] at h
    subst h
    exact List.mem_cons_self a m

theorem getLast?_mem {l : List Char} {c : Char} (h : l.getLast? = some c) : c ∈ l := by
  have h2 : l.reverse.head? = some c := by
    rw [List.head?_reverse]
    exact h
  have h3 := head?_mem h2
  simpa using h3

theorem pyStripQuotes_format_literal (x : String)
    (h : ∀ c ∈ x.toList, plain_char c = true) :
    pyStripQuotes (format_literal (some x)) = x := by
  have hfl : format_literal (some x) =
      "\"" ++ (escape_literal_chars x.toList).asString ++ "\"" := rfl
  rw [hfl, escape_plain x.toList h]
  unfold pyStripQuotes
  have hdata : ("\"" ++ x.toList.asString ++ "\"").toList = '"' :: (x.toList ++ ['"']) := by
    rw [strToList_append, strToList_append]
    rfl
  rw [hdata, dropEdges_wrap]
  · exact asString_toList x
  · rfl
  · rfl
  · intro c hc
    have := (plain_char_spec c (h c hc)).1
    simpa using this

theorem pyStripWhitespace_eq_self (s : String)
    (h1 : ∀ c, s.toList.head? = some c → plain_char c = true)
    (h2 : ∀ c, s.toList.getLast? = some c → plain_char c = true) :
    pyStripWhitespace s = s := by
  unfold pyStripWhitespace
  rw [dropEdges_eq_self]
  · exact asString_toList s
  · intro c hc
    exact (plain_char_spec c (h1 c hc)).2.2.2
  · intro c hc
    exact (plain_char_spec c (h2 c hc)).2.2.2

theorem head_plain_of_append (g rest : String) (hgne : g ≠ "")
    (hg : ∀ c ∈ g.toList, plain_char c = true) :
    ∀ c, (g ++ rest).toList.head? = some c → plain_char c = true := by
  intro c hc
  rw [strToList_append] at hc
  cases hgl : g.toList with
  | nil => exact absurd hgl (toList_ne_nil g hgne)
  | cons c0 r =>
    rw [hgl] at hc
    simp only [List.cons_append, List.head?_cons, Option.some.injEq] at hc
    subst hc
    exact hg c0 (by rw [hgl]; exact List.mem_cons_self c0 r)

theorem last_plain_of_append (x f : String) (hfne : f ≠ "")
    (hf : ∀ c ∈ f.toList, plain_char c = true) :
    ∀ c, (x ++ f).toList.getLast? = some c → plain_char c = true := by
  intro c hc
  rw [strToList_append,
    List.getLast?_append_of_ne_nil _ (toList_ne_nil f hfne)] at hc
  exact hf c (getLast?_mem hc)

/-- Claim C3 (amended): the category label on a group's first row, after
stripping the `_$!<...>!$_` decorator when present, is stored into the group
as a single literal category tag `('vcard:category', '"label"')` — there is
no label-to-canonical-type table, recognized labels such as "Mobile",
"WorkFAX", "Home", "Pager" or "iPhone" are treated exactly like unrecognized
ones, and an absent or empty label stores nothing. -/
theorem c3_label_literal_tag_only (l v : String) (hl : l ≠ "") (hv : v ≠ "") :
    ∃ tag, translate_category_label (some l) = some tag ∧
      _process_person_multi_values [] [⟨1, 4, some v, some l, none, none⟩] =
        Except.ok [((1, "vcard:hasEmail"),
            [("vcard:category", tag), ("vcard:hasValue", "<mailto:" ++ v ++ ">")])] := by
  have htag : translate_category_label (some l) =
      some ("\"" ++ (if 8 < strLen l ∧ strBeginsWith l "_$!<" = true
                     then strDropEnd (strDrop l 4) 4 else l) ++ "\"") := by
    simp [translate_category_label, hl]
  set tag := "\"" ++ (if 8 < strLen l ∧ strBeginsWith l "_$!<" = true
                      then strDropEnd (strDrop l 4) 4 else l) ++ "\"" with htagdef
  have htagne : tag ≠ "" := quote_wrap_ne_empty _
  refine ⟨tag, htag, ?_⟩
  have hcat : categoryDict ⟨1, 4, some v, some l, none, none⟩ =
      [("vcard:category", tag)] := by
    unfold categoryDict
    simp only [htag]
    rw [if_pos htagne]
    rfl
  have hvT : pyTruthyS (some v) = true := by simp [pyTruthyS, hv]
  have hres : processRows [] initLoopState [⟨1, 4, some v, some l, none, none⟩] =
      Except.ok ⟨some 1, some "vcard:hasEmail", some PropHandler.hasEmail,
        some (1, "vcard:hasEmail"),
        [((1, "vcard:hasEmail"),
          [("vcard:category", tag), ("vcard:hasValue", "<mailto:" ++ v ++ ">")])]⟩ := by
    simp [processRows, process_mv_row, process_row_value, initLoopState, hcat, hvT,
      applyHandler, listDictSet, listDictGet?, _get_mv_property_type_qname, prop_type_map,
      pyTruthyS, pyTruthyI, hv]
  unfold _process_person_multi_values
  rw [hres]
  rfl

theorem c3_label_literal_tag_only_witness :
    translate_category_label (some "Mobile") = some "\"Mobile\"" ∧
    _process_person_multi_values [] [⟨1, 4, some "a@b", some "Mobile", none, none⟩] =
      Except.ok [((1, "vcard:hasEmail"),
          [("vcard:category", "\"Mobile\""), ("vcard:hasValue", "<mailto:a@b>")])] := by
  obtain ⟨tag, h1, h2⟩ := c3_label_literal_tag_only "Mobile" "a@b" (by decide) (by decide)
  have htag : tag = "\"Mobile\"" := by
    have h1' : some tag = some "\"Mobile\"" :=
      h1.symm.trans (show translate_category_label (some "Mobile") = some "\"Mobile\"" from rfl)
    injection h1'
  subst htag
  exact ⟨h1, h2⟩

/-- Claim C10 (amended): before serialization every entity gains a synthesized
`vcard:fn` equal to the quote-stripped name components concatenated with a
separator space appended after each nonempty partial result and the ends
trimmed — given, additional and family names join with single spaces, but a
missing additional name between present given and family names leaves a
double space (so the value is not always the space-joined components); when
the name components yield the empty string the organization name is used;
entities with no such components get no `vcard:fn`. -/
theorem c10_formatted_name_synthesis (g a f o : String)
    (hg : ∀ c ∈ g.toList, plain_char c = true)
    (ha : ∀ c ∈ a.toList, plain_char c = true)
    (hf : ∀ c ∈ f.toList, plain_char c = true)
    (ho : ∀ c ∈ o.toList, plain_char c = true) :
    (g ≠ "" → a ≠ "" → f ≠ "" →
      listDictGet? (generate_formatted_name
          ⟨1, [("vcard:given-name", format_literal (some g)),
               ("vcard:additional-name", format_literal (some a)),
               ("vcard:family-name", format_literal (some f))], []⟩).values "vcard:fn" =
        some (format_literal (some (g ++ " " ++ a ++ " " ++ f)))) ∧
    (g ≠ "" → f ≠ "" →
      listDictGet? (generate_formatted_name
          ⟨1, [("vcard:given-name", format_literal (some g)),
               ("vcard:family-name", format_literal (some f))], []⟩).values "vcard:fn" =
        some (format_literal (some (g ++ "  " ++ f)))) ∧
    (o ≠ "" →
      listDictGet? (generate_formatted_name
          ⟨1, [("vcard:organization-name", format_literal (some o))], []⟩).values
        "vcard:fn" = some (format_literal (some o))) ∧
    listDictGet? (generate_formatted_name ⟨1, [], []⟩).values "vcard:fn" = none := by
  refine ⟨?_, ?_, ?_, ?_⟩
  · intro hgne hane hfne
    have hQg := pyStripQuotes_format_literal g hg
    have hQa := pyStripQuotes_format_literal a ha
    have hQf := pyStripQuotes_format_literal f hf
    have L1 : listDictGet? [("vcard:given-name", format_literal (some g)),
        ("vcard:additional-name", format_literal (some a)),
        ("vcard:family-name", format_literal (some f))] "vcard:given-name" =
        some (format_literal (some g)) := by simp [listDictGet?]
    have L2 : listDictGet? [("vcard:given-name", format_literal (some g)),
        ("vcard:additional-name", format_literal (some a)),
        ("vcard:family-name", format_literal (some f))] "vcard:additional-name" =
        some (format_literal (some a)) := by simp [listDictGet?]
    have L3 : listDictGet? [("vcard:given-name", format_literal (some g)),
        ("vcard:additional-name", format_literal (some a)),
        ("vcard:family-name", format_literal (some f))] "vcard:family-name" =
        some (format_literal (some f)) := by simp [listDictGet?]
    have L4 : listDictGet? [("vcard:given-name", format_literal (some g)),
        ("vcard:additional-name", format_literal (some a)),
        ("vcard:family-name", format_literal (some f))] "vcard:organization-name" =
        none := by simp [listDictGet?]
    have hne1 : g ++ " " ≠ "" := append_ne_empty_left g " " hgne
    have hne2 : (g ++ " ") ++ a ≠ "" := append_ne_empty_left _ a hne1
    have hne3 : ((g ++ " ") ++ a) ++ " " ≠ "" := append_ne_empty_left _ " " hne2
    have hne4 : (((g ++ " ") ++ a) ++ " ") ++ f ≠ "" := append_ne_empty_left _ f hne3
    have hassoc1 : (((g ++ " ") ++ a) ++ " ") ++ f = g ++ (" " ++ (a ++ (" " ++ f))) := by
      rw [String.append_assoc, String.append_assoc, String.append_assoc]
    have hh1 : ∀ c, ((((g ++ " ") ++ a) ++ " ") ++ f).toList.head? = some c →
        plain_char c = true := by
      rw [hassoc1]
      exact head_plain_of_append g _ hgne hg
    have hh2 : ∀ c, ((((g ++ " ") ++ a) ++ " ") ++ f).toList.getLast? = some c →
        plain_char c = true := last_plain_of_append _ f hfne hf
    have hstrip : pyStripWhitespace ((((g ++ " ") ++ a) ++ " ") ++ f) =
        (((g ++ " ") ++ a) ++ " ") ++ f := pyStripWhitespace_eq_self _ hh1 hh2
    unfold generate_formatted_name
    simp only [L1, L2, L3, L4]
    simp [hQg, hQa, hQf, hgne, hane, hfne, hne1, hne2, hne3, hne4, hstrip]
    simp [listDictSet, listDictGet?]
  · intro hgne hfne
    have hQg := pyStripQuotes_format_literal g hg
    have hQf := pyStripQuotes_format_literal f hf
    have L1 : listDictGet? [("vcard:given-name", format_literal (some g)),
        ("vcard:family-name", format_literal (some f))] "vcard:given-name" =
        some (format_literal (some g)) := by simp [listDictGet?]
    have L2 : listDictGet? [("vcard:given-name", format_literal (some g)),
        ("vcard:family-name", format_literal (some f))] "vcard:additional-name" =
        none := by simp [listDictGet?]
    have L3 : listDictGet? [("vcard:given-name", format_literal (some g)),
        ("vcard:family-name", format_literal (some f))] "vcard:family-name" =
        some (format_literal (some f)) := by simp [listDictGet?]
    have L4 : listDictGet? [("vcard:given-name", format_literal (some g)),
        ("vcard:family-name", format_literal (some f))] "vcard:organization-name" =
        none := by simp [listDictGet?]
    have hne1 : g ++ " " ≠ "" := append_ne_empty_left g " " hgne
    have hne3 : (g ++ " ") ++ " " ≠ "" := append_ne_empty_left _ " " hne1
    have hne4 : ((g ++ " ") ++ " ") ++ f ≠ "" := append_ne_empty_left _ f hne3
    have hne4' : (g ++ "  ") ++ f ≠ "" :=
      append_ne_empty_left _ f (append_ne_empty_left g "  " hgne)
    have hassoc1 : (g ++ "  ") ++ f = g ++ ("  " ++ f) := by
      rw [String.append_assoc]
    have hh1 : ∀ c, ((g ++ "  ") ++ f).toList.head? = some c →
        plain_char c = true := by
      rw [hassoc1]
      exact head_plain_of_append g _ hgne hg
    have hh2 : ∀ c, ((g ++ "  ") ++ f).toList.getLast? = some c →
        plain_char c = true := last_plain_of_append _ f hfne hf
    have hstrip : pyStripWhitespace ((g ++ "  ") ++ f) = (g ++ "  ") ++ f :=
      pyStripWhitespace_eq_self _ hh1 hh2
    have hsh : (g ++ " ") ++ " " = g ++ "  " := by
      rw [String.append_assoc]
      rfl
    unfold generate_formatted_name
    simp only [L1, L2, L3, L4]
    simp [hQg, hQf, hgne, hfne, hne1, hne3, hne4, hne4', hstrip, hsh]
    simp [listDictSet, listDictGet?]
  · intro hone
    have hQo := pyStripQuotes_format_literal o ho
    have L1 : listDictGet? [("vcard:organization-name", format_literal (some o))]
        "vcard:given-name" = none := by simp [listDictGet?]
    have L2 : listDictGet? [("vcard:organization-name", format_literal (some o))]
        "vcard:additional-name" = none := by simp [listDictGet?]
    have L3 : listDictGet? [("vcard:organization-name", format_literal (some o))]
        "vcard:family-name" = none := by simp [listDictGet?]
    have L4 : listDictGet? [("vcard:organization-name", format_literal (some o))]
        "vcard:organization-name" = some (format_literal (some o)) := by
      simp [listDictGet?]
    have hstrip : pyStripWhitespace o = o :=
      pyStripWhitespace_eq_self o (fun c hc => ho c (head?_mem hc))
        (fun c hc => ho c (getLast?_mem hc))
    unfold generate_formatted_name
    simp only [L1, L2, L3, L4]
    simp [hQo, hone, hstrip]
    simp [listDictSet, listDictGet?]
  · rfl

theorem c10_formatted_name_synthesis_witness :
    listDictGet? (generate_formatted_name
        ⟨1, [("vcard:given-name", format_literal (some "Ann")),
             ("vcard:family-name", format_literal (some "Smith"))], []⟩).values "vcard:fn" =
      some (format_literal (some ("Ann" ++ "  " ++ "Smith"))) :=
  (c10_formatted_name_synthesis "Ann" "X" "Smith" "Acme" (by decide) (by decide)
    (by decide) (by decide)).2.1 (by decide) (by decide)
